import Mathlib

/-!
# Network bootstrap of the cloud-game worker (`pkg/worker/worker.go`)

A shallow embedding of the worker's listener bootstrap: the two server
constructors, the redirect handler, `spawnServer`, the port scan of
`startServer` and the start-up sequence of `initializeWorker`.

Effects are made explicit.  The outcome of a blocking library call
(`ListenAndServe`, `ListenAndServeTLS`, `Prepare`) is supplied by the
environment as an oracle, and every function returns the trace of the
events it performs together with the way it ended.
-/

namespace Worker

/-! ## Go integers and strings -/

/-- Smallest value of Go's `int` on a 64-bit platform. -/
def minInt : Int := -(2 ^ 63)

/-- Largest value of Go's `int` on a 64-bit platform. -/
def maxInt : Int := 2 ^ 63 - 1

/-- Two's-complement wrap-around of an `int` result. -/
def wrapInt (x : Int) : Int := (x + 2 ^ 63) % 2 ^ 64 - 2 ^ 63

/-- The function `strconv.Itoa`: decimal rendering of an `int`. -/
def strconv_Itoa (i : Int) : String := toString i

/-! ## Servers -/

/-- The two handler functions registered by this file. -/
inductive HandlerFunc where
  /-- the closure registered on `/echo` in `makeHTTPServer` -/
  | echo
  /-- the closure `handleRedirect` of `makeHTTPToHTTPSRedirectServer` -/
  | handleRedirect
  deriving DecidableEq, Repr

/-- The type `autocert.Manager`, with the three fields `spawnServer` sets. -/
structure Manager where
  Prompt : String
  Cache : String
  DirectoryURL : String
  deriving DecidableEq, Repr

/-- An `http.Handler`: a `ServeMux` with its registered patterns, or the
handler returned by `certManager.HTTPHandler(fallback)`. -/
inductive Handler where
  | serveMux (routes : List (String × HandlerFunc))
  | acmeHTTPHandler (m : Manager) (fallback : Handler)
  deriving DecidableEq, Repr

/-- The type `http.Server`, with the fields this file touches.  Timeouts are
in seconds.  `TLSConfig` holds the manager whose `GetCertificate` is installed,
if any. -/
structure Server where
  Addr : String
  Handler : Handler
  ReadTimeout : Nat
  WriteTimeout : Nat
  IdleTimeout : Nat
  TLSConfig : Option Manager
  deriving DecidableEq, Repr

/-- The function `makeServerFromMux`. -/
def makeServerFromMux (mux : Handler) : Server :=
  { Addr := ""
    Handler := mux
    ReadTimeout := 5
    WriteTimeout := 5
    IdleTimeout := 120
    TLSConfig := none }

/-- The function `makeHTTPServer`. -/
def makeHTTPServer : Server :=
  makeServerFromMux (Handler.serveMux [("/echo", HandlerFunc.echo)])

/-- The function `makeHTTPToHTTPSRedirectServer`. -/
def makeHTTPToHTTPSRedirectServer : Server :=
  makeServerFromMux (Handler.serveMux [("/", HandlerFunc.handleRedirect)])

/-! ## The port scan -/

/-- What a call of `ListenAndServe` / `ListenAndServeTLS` does. -/
inductive ListenResult where
  /-- it returns `http.ErrServerClosed` -/
  | ErrServerClosed
  /-- it returns another error, e.g. the bind failed -/
  | otherError (msg : String)
  /-- it bound the port and keeps serving: the call does not return -/
  | serving
  deriving DecidableEq, Repr

/-- Observable events of the bootstrap. -/
inductive Event where
  /-- the call `NewHandler(o.cfg)` -/
  | NewHandler
  /-- the statement `go wrk.Run()` -/
  | goHandlerRun
  /-- the call `wrk.Prepare()` is entered -/
  | PrepareCalled
  /-- the call `wrk.Prepare()` has returned -/
  | PrepareReturned
  /-- the call `o.spawnServer(port)` is entered -/
  | spawnServer (port : Int)
  /-- the `go func(chain, key)` statement of `spawnServer` -/
  | goHTTPS (addr chain key : String)
  /-- the output `Starting HTTPS server on <addr>`, in the goroutine -/
  | printStartingHTTPS (addr : String)
  /-- the call `httpsSrv.ListenAndServeTLS(chain, key)`, in the goroutine -/
  | ListenAndServeTLS (addr chain key : String)
  /-- the log line `httpsSrv.ListendAndServeTLS() failed with <err>` -/
  | logHTTPSFailed
  /-- the call `serv.ListenAndServe()` with loop variable `port` and the
  value of `serv.Addr` at the call -/
  | ListenAndServe (port : Int) (addr : String)
  /-- the log line `HTTP(S) server was closed` -/
  | logServerClosed
  /-- the log line `error: couldn't find an open port in range <a>-<b>` -/
  | logNoOpenPort (startPort port : Int)
  /-- the deferred `log.Println("Close worker")` and `wrk.Close()` -/
  | closeWorker
  deriving DecidableEq, Repr

/-- How a run of a function ended. -/
inductive Status where
  /-- the function returned to its caller -/
  | returned
  /-- the function is blocked inside a call that does not return -/
  | blocked
  /-- the model ran out of fuel -/
  | outOfFuel
  deriving DecidableEq, Repr

/-- A run: the events performed, in order, and how it ended. -/
structure Run where
  trace : List Event
  status : Status
  deriving DecidableEq, Repr

/-- The loop of `startServer`, entered with loop variable `port`:
`for ...; port < n; port++ { ... }`.  `fuel` bounds the number of evaluations
of the loop condition. -/
def startServerLoop (ListenAndServe : Server → ListenResult) (serv : Server)
    (startPort n : Int) : Nat → Int → Run
  | 0, _ => ⟨[], Status.outOfFuel⟩
  | fuel + 1, port =>
    if port < n then
      let serv1 : Server := { serv with Addr := ":" ++ strconv_Itoa port }
      match ListenAndServe serv1 with
      | ListenResult.ErrServerClosed =>
        ⟨[Event.ListenAndServe port serv1.Addr, Event.logServerClosed], Status.returned⟩
      | ListenResult.serving =>
        ⟨[Event.ListenAndServe port serv1.Addr], Status.blocked⟩
      | ListenResult.otherError _ =>
        let port1 := wrapInt (port + 1)
        let rest := startServerLoop ListenAndServe serv1 startPort n fuel (wrapInt (port1 + 1))
        ⟨Event.ListenAndServe port serv1.Addr ::
            ((if port1 = n then [Event.logNoOpenPort startPort port1] else []) ++ rest.trace),
          rest.status⟩
    else ⟨[], Status.returned⟩

/-- The function `startServer`.  The window holds 100 candidate ports, so the
loop condition is evaluated at most 101 times. -/
def startServer (ListenAndServe : Server → ListenResult) (serv : Server)
    (startPort : Int) : Run :=
  startServerLoop ListenAndServe serv startPort (wrapInt (startPort + 100)) 101 startPort

/-! ## Configuration -/

/-- Modelled from the spec: the type `Env` of the package `environment`, which
`worker.go` imports; its deployment modes are `Production`, `Staging` and
`Development`. -/
inductive Env where
  | Production
  | Staging
  | Development
  deriving DecidableEq, Repr

/-- Modelled from the spec: the method `AnyOf` of the package `environment`,
which `worker.go` imports; it tells whether the mode is one of the listed
ones. -/
def Env.AnyOf (env : Env) (what : List Env) : Bool := what.contains env

/-- Modelled from the spec: the server section of the configuration (package
`config/worker`, which `worker.go` imports) with the four fields read here. -/
structure ServerConfig where
  Port : Int
  HttpsPort : Int
  HttpsChain : String
  HttpsKey : String
  deriving DecidableEq, Repr

/-- Modelled from the spec: the `Worker` section of the configuration. -/
structure WorkerSection where
  Server : ServerConfig
  deriving DecidableEq, Repr

/-- Modelled from the spec: the configuration `worker.Config`; `Environment`
is the value of `cfg.Environment.Get()`. -/
structure Config where
  Environment : Env
  Worker : WorkerSection
  deriving DecidableEq, Repr

/-! ## spawnServer -/

/-- The constant `stagingLEURL`. -/
def stagingLEURL : String := "https://acme-staging-v02.api.letsencrypt.org/directory"

/-- The constant `acme.LetsEncryptURL` of `golang.org/x/crypto/acme`. -/
def acme_LetsEncryptURL : String := "https://acme-v02.api.letsencrypt.org/directory"

/-- The value `autocert.AcceptTOS` given as `Prompt`. -/
def autocert_AcceptTOS : String := "autocert.AcceptTOS"

/-- The value `autocert.DirCache(dir)` given as `Cache`: the directory. -/
def autocert_DirCache (dir : String) : String := dir

/-- The call `fmt.Sprintf(":%d", p)`. -/
def addrOfPort (p : Int) : String := ":" ++ toString p

/-- The goroutine started by `spawnServer`: the server it serves and the
arguments `chain`, `key` it was started with. -/
structure HTTPSLaunch where
  srv : Server
  chain : String
  key : String
  deriving DecidableEq, Repr

/-- The local variables of `spawnServer` at the call of `startServer`,
together with the goroutine it has started, if any. -/
structure SpawnState where
  certManager : Option Manager
  httpsLaunch : Option HTTPSLaunch
  httpSrv : Server
  deriving DecidableEq, Repr

/-- The first `if` block of `spawnServer`: the certificate manager (`nil` or
set) and the HTTPS goroutine started (or not). -/
def spawnServerTLS (cfg : Config) : Option Manager × Option HTTPSLaunch :=
  let mode := cfg.Environment
  if mode.AnyOf [Env.Production, Env.Staging] then
    let serverConfig := cfg.Worker.Server
    let httpsSrv : Server := { makeHTTPServer with Addr := addrOfPort serverConfig.HttpsPort }
    if serverConfig.HttpsChain = "" ∨ serverConfig.HttpsKey = "" then
      let serverConfig : ServerConfig := { serverConfig with HttpsChain := "", HttpsKey := "" }
      let leurl := if mode = Env.Staging then stagingLEURL else acme_LetsEncryptURL
      let certManager : Manager :=
        { Prompt := autocert_AcceptTOS
          Cache := autocert_DirCache "assets/cache"
          DirectoryURL := leurl }
      let httpsSrv : Server := { httpsSrv with TLSConfig := some certManager }
      (some certManager, some ⟨httpsSrv, serverConfig.HttpsChain, serverConfig.HttpsKey⟩)
    else
      (none, some ⟨httpsSrv, serverConfig.HttpsChain, serverConfig.HttpsKey⟩)
  else
    (none, none)

/-- The straight-line part of `spawnServer`, up to the call of `startServer`. -/
def spawnServerState (cfg : Config) : SpawnState :=
  let mode := cfg.Environment
  let tls := spawnServerTLS cfg
  let httpSrv : Server :=
    if mode.AnyOf [Env.Production, Env.Staging] then makeHTTPToHTTPSRedirectServer
    else makeHTTPServer
  let httpSrv : Server :=
    match tls.1 with
    | some certManager =>
      { httpSrv with Handler := Handler.acmeHTTPHandler certManager httpSrv.Handler }
    | none => httpSrv
  { certManager := tls.1, httpsLaunch := tls.2, httpSrv := httpSrv }

/-- The body of the goroutine started by `spawnServer`: one call of
`ListenAndServeTLS`; every error it returns is logged. -/
def httpsGoroutine (ListenAndServeTLS : Server → String → String → ListenResult)
    (l : HTTPSLaunch) : Run :=
  match ListenAndServeTLS l.srv l.chain l.key with
  | ListenResult.serving =>
    ⟨[Event.printStartingHTTPS l.srv.Addr, Event.ListenAndServeTLS l.srv.Addr l.chain l.key],
      Status.blocked⟩
  | _ =>
    ⟨[Event.printStartingHTTPS l.srv.Addr, Event.ListenAndServeTLS l.srv.Addr l.chain l.key,
        Event.logHTTPSFailed], Status.returned⟩

/-- A run of a function that may start the HTTPS goroutine: the caller's
events up to and including the `go` statement, the run of the goroutine (if
started), and the caller's run after the `go` statement. -/
structure Spawned where
  pre : List Event
  https : Option Run
  post : Run
  deriving DecidableEq, Repr

/-- The function `spawnServer`. -/
def spawnServer (ListenAndServe : Server → ListenResult)
    (ListenAndServeTLS : Server → String → String → ListenResult)
    (cfg : Config) (port : Int) : Spawned :=
  let st := spawnServerState cfg
  { pre :=
      Event.spawnServer port ::
        (match st.httpsLaunch with
         | some l => [Event.goHTTPS l.srv.Addr l.chain l.key]
         | none => [])
    https := st.httpsLaunch.map (httpsGoroutine ListenAndServeTLS)
    post := startServer ListenAndServe st.httpSrv port }

/-! ## initializeWorker -/

/-- The function `initializeWorker`.  `prepareReturns` tells whether the
blocking call `wrk.Prepare()` returns.  The deferred close runs when the
function returns. -/
def initializeWorker (prepareReturns : Bool) (ListenAndServe : Server → ListenResult)
    (ListenAndServeTLS : Server → String → String → ListenResult) (cfg : Config) : Spawned :=
  if prepareReturns then
    let s := spawnServer ListenAndServe ListenAndServeTLS cfg cfg.Worker.Server.Port
    { pre := [Event.NewHandler, Event.goHandlerRun, Event.PrepareCalled, Event.PrepareReturned]
               ++ s.pre
      https := s.https
      post :=
        match s.post.status with
        | Status.returned => ⟨s.post.trace ++ [Event.closeWorker], Status.returned⟩
        | st => ⟨s.post.trace, st⟩ }
  else
    { pre := [Event.NewHandler, Event.goHandlerRun, Event.PrepareCalled]
      https := none
      post := ⟨[], Status.blocked⟩ }

/-- Interleaving of the events of two goroutines chosen by a schedule: `true`
lets the first one step, `false` the second one. -/
def interleave : List Bool → List Event → List Event → List Event
  | _, [], ys => ys
  | _, x :: xs, [] => x :: xs
  | [], x :: xs, y :: ys => x :: xs ++ y :: ys
  | true :: s, x :: xs, y :: ys => x :: interleave s xs (y :: ys)
  | false :: s, x :: xs, y :: ys => y :: interleave s (x :: xs) ys

/-- The events of a run in the order in which they happen under a schedule:
the goroutine runs concurrently with what follows its `go` statement. -/
def Spawned.observed (sched : List Bool) (r : Spawned) : List Event :=
  r.pre ++ interleave sched r.post.trace (match r.https with
                                           | some g => g.trace
                                           | none => [])

/-- An event that opens a listener. -/
def Event.isListen : Event → Bool
  | Event.ListenAndServe _ _ => true
  | Event.ListenAndServeTLS _ _ _ => true
  | _ => false

/-! ## The redirect server -/

/-- The parts of `r.URL` of a request whose target is a path with an optional
query: the decoded `Path`, the value of `EscapedPath()`, `RawQuery` and
`ForceQuery`. -/
structure URL where
  Path : String
  EscapedPath : String
  RawQuery : String
  ForceQuery : Bool
  deriving DecidableEq, Repr

/-- The method `URL.String()` of `net/url` on such a URL (no scheme, host or
fragment): `./` in front of a first segment that holds a colon, the escaped
path, then `?` and the query when there is one. -/
def URL.String (u : URL) : String :=
  (if ':' ∈ u.EscapedPath.data.takeWhile (fun c => c != '/') then "./" else "")
    ++ u.EscapedPath
    ++ (if u.ForceQuery = true ∨ u.RawQuery ≠ "" then "?" ++ u.RawQuery else "")

/-- The fields of `http.Request` read here, for a request other than
`CONNECT`. -/
structure Request where
  Host : String
  URL : URL
  deriving DecidableEq, Repr

/-- What a handler wrote: the status code and the `Location` header. -/
structure Response where
  StatusCode : Nat
  Location : String
  deriving DecidableEq, Repr

/-- The constant `http.StatusFound`. -/
def http_StatusFound : Nat := 302

/-- The constant `http.StatusMovedPermanently`. -/
def http_StatusMovedPermanently : Nat := 301

/-- The constant `http.StatusNotFound`. -/
def http_StatusNotFound : Nat := 404

/-- The UTF-8 bytes of a code point: the bytes a Go string holds for it. -/
def utf8Bytes (n : Nat) : List Nat :=
  if n < 0x80 then [n]
  else if n < 0x800 then [0xC0 + n / 64, 0x80 + n % 64]
  else if n < 0x10000 then [0xE0 + n / 4096, 0x80 + n / 64 % 64, 0x80 + n % 64]
  else [0xF0 + n / 262144, 0x80 + n / 4096 % 64, 0x80 + n / 64 % 64, 0x80 + n % 64]

/-- One hexadecimal digit in lower case, as `strconv.AppendInt` writes it in
base 16. -/
def hexDigit (d : Nat) : Char := "0123456789abcdef".data.getD d '0'

/-- Each byte written as `%` and its two hexadecimal digits. -/
def hexEscapeBytes : List Nat → List Char
  | [] => []
  | b :: bs => '%' :: hexDigit (b / 16) :: hexDigit (b % 16) :: hexEscapeBytes bs

/-- The loop of `hexEscapeNonASCII`: bytes below `0x80` are kept, the others
are escaped. -/
def hexEscapeChars : List Char → List Char
  | [] => []
  | c :: cs =>
    (if c.toNat < 0x80 then [c] else hexEscapeBytes (utf8Bytes c.toNat)) ++ hexEscapeChars cs

/-- The function `hexEscapeNonASCII` of `net/http`. -/
def hexEscapeNonASCII (s : String) : String := String.mk (hexEscapeChars s.data)

/-- The function `http.Redirect` for a target that begins with a scheme (the
target is not resolved against the request path): it replies with the given
code and with `hexEscapeNonASCII(url)` as `Location`. -/
def http_Redirect (url : String) (code : Nat) : Response :=
  { StatusCode := code, Location := hexEscapeNonASCII url }

/-- The closure `handleRedirect` of `makeHTTPToHTTPSRedirectServer`. -/
def handleRedirect (r : Request) : Response :=
  let newURI := "https://" ++ r.Host ++ r.URL.String
  http_Redirect newURI http_StatusFound

/-- The closure registered on `/echo`: it sets a header and logs; nothing is
written, so the reply is an empty `200`. -/
def handleEcho (_r : Request) : Response :=
  { StatusCode := 200, Location := "" }

/-- The function a handler tag stands for. -/
def HandlerFunc.ServeHTTP : HandlerFunc → Request → Response
  | HandlerFunc.echo => Worker.handleEcho
  | HandlerFunc.handleRedirect => Worker.handleRedirect

/-- The segments of a path: the pieces between the slashes. -/
def splitSlash : List Char → List (List Char)
  | [] => [[]]
  | c :: cs =>
    if c = '/' then [] :: splitSlash cs
    else
      match splitSlash cs with
      | [] => [[c]]
      | s :: ss => (c :: s) :: ss

/-- The rules of `path.Clean` on the segments of a rooted path: empty and `.`
segments are dropped, `..` drops the segment before it (and is dropped at the
root).  `kept` holds the segments kept so far, last one first. -/
def cleanSegments : List (List Char) → List (List Char) → List (List Char)
  | kept, [] => kept.reverse
  | kept, seg :: segs =>
    if seg = [] ∨ seg = ['.'] then cleanSegments kept segs
    else if seg = ['.', '.'] then cleanSegments kept.tail segs
    else cleanSegments (seg :: kept) segs

/-- The function `path.Clean` on a rooted path. -/
def path_Clean (p : List Char) : List Char :=
  '/' :: List.intercalate ['/'] (cleanSegments [] (splitSlash p))

/-- The function `cleanPath` of `net/http`: the canonical form of a request
path, rooted, with a trailing slash kept. -/
def cleanPath (p : String) : String :=
  if p = "" then "/"
  else
    let p1 := if p.data.head? = some '/' then p.data else '/' :: p.data
    let np := path_Clean p1
    if p1.getLast? = some '/' ∧ np ≠ ['/'] then String.mk (np ++ ['/']) else String.mk np

/-- What the server did with a request. -/
inductive Served where
  /-- the mux passed the request to the handler `f`, which wrote `resp` -/
  | byHandler (f : HandlerFunc) (resp : Response)
  /-- the mux itself answered with `RedirectHandler(u.String(), 301)` for
  `u = URL{Path: path, RawQuery: rawQuery}` -/
  | movedPermanently (path rawQuery : String)
  /-- the mux found no pattern: `NotFoundHandler()` -/
  | notFound
  deriving DecidableEq, Repr

/-- The status code of the reply. -/
def Served.StatusCode : Served → Nat
  | Served.byHandler _ resp => resp.StatusCode
  | Served.movedPermanently _ _ => http_StatusMovedPermanently
  | Served.notFound => http_StatusNotFound

/-- The method `ServeMux.ServeHTTP` for a mux whose single pattern is the
subtree `/`, as in `makeHTTPToHTTPSRedirectServer`: a request whose path is not
in canonical form is answered with a 301 to the cleaned path, any other is
passed to the handler of the pattern.  (With this single pattern the redirect
of `/tree` to `/tree/` never applies.)  Other handlers and the request target
`*` are left out: the result is `none`. -/
def Handler.ServeHTTP : Handler → Request → Option Served
  | Handler.serveMux [(pattern, f)], r =>
    if pattern = "/" ∧ r.URL.Path ≠ "*" then
      let path := cleanPath r.URL.Path
      if path ≠ r.URL.Path then some (Served.movedPermanently path r.URL.RawQuery)
      else if pattern.data.isPrefixOf r.URL.Path.data = true then
        some (Served.byHandler f (f.ServeHTTP r))
      else some Served.notFound
    else none
  | _, _ => none

/-! ## Trace queries and concrete scenarios -/

/-- The addresses on which `ListenAndServe` was called, in order. -/
def attemptedAddrs : List Event → List String
  | [] => []
  | Event.ListenAndServe _ addr :: es => addr :: attemptedAddrs es
  | _ :: es => attemptedAddrs es

/-- The values of the loop variable at the calls of `ListenAndServe`. -/
def attemptedPorts : List Event → List Int
  | [] => []
  | Event.ListenAndServe port _ :: es => port :: attemptedPorts es
  | _ :: es => attemptedPorts es

/-- The error of a bind on a port that is in use. -/
def bindError : ListenResult :=
  ListenResult.otherError "bind: address already in use"

/-- Every port is in use. -/
def allPortsBusy : Server → ListenResult := fun _ => bindError

/-- Only `addr` is free, and the server bound to it keeps serving. -/
def onlyFree (addr : String) : Server → ListenResult :=
  fun s => if s.Addr = addr then ListenResult.serving else bindError

/-- Only `addr` is free, and the server bound to it is closed later. -/
def closedAt (addr : String) : Server → ListenResult :=
  fun s => if s.Addr = addr then ListenResult.ErrServerClosed else bindError

/-- The HTTPS port is in use, whatever the address. -/
def tlsBusy : Server → String → String → ListenResult := fun _ _ _ => bindError

/-- Production with a certificate chain but no key. -/
def prodChainOnly : Config :=
  { Environment := Env.Production
    Worker := { Server := { Port := 8000, HttpsPort := 443, HttpsChain := "chain.pem", HttpsKey := "" } } }

/-- Production with a static chain and key. -/
def prodStatic : Config :=
  { Environment := Env.Production
    Worker := { Server := { Port := 8000, HttpsPort := 443, HttpsChain := "chain.pem", HttpsKey := "key.pem" } } }

/-- Staging with no static certificate. -/
def stagingAuto : Config :=
  { Environment := Env.Staging
    Worker := { Server := { Port := 8000, HttpsPort := 443, HttpsChain := "", HttpsKey := "" } } }

/-! ## Arithmetic of the loop variable -/

theorem wrapInt_of_inRange (x : Int) (h1 : minInt ≤ x) (h2 : x ≤ maxInt) : wrapInt x = x := by
  simp only [wrapInt, minInt, maxInt] at *
  omega

theorem wrapInt_parity (x : Int) : wrapInt x % 2 = x % 2 := by
  simp only [wrapInt]
  omega

/-! ## The port scan -/

/-- While the loop variable and the bound `n` have the same parity, the test
`port == n` after the first increment fails, so the exhaustion line is not
logged. -/
theorem startServerLoop_no_exhaustion (ListenAndServe : Server → ListenResult)
    (startPort n : Int) :
    ∀ (fuel : Nat) (serv : Server) (port : Int), (n - port) % 2 = 0 →
      ∀ a b, Event.logNoOpenPort a b ∉
        (startServerLoop ListenAndServe serv startPort n fuel port).trace := by
  intro fuel
  induction fuel with
  | zero => intro serv port _ a b; simp [startServerLoop]
  | succ fuel ih =>
    intro serv port hpar a b
    simp only [startServerLoop]
    split
    · split
      · simp
      · simp
      · have h1 : wrapInt (port + 1) ≠ n := by
          intro h
          have := wrapInt_parity (port + 1)
          omega
        have h2 : (n - wrapInt (wrapInt (port + 1) + 1)) % 2 = 0 := by
          have := wrapInt_parity (port + 1)
          have := wrapInt_parity (wrapInt (port + 1) + 1)
          omega
        simp only [h1, if_false, List.nil_append, List.mem_cons, not_or]
        exact ⟨by simp, ih _ _ h2 a b⟩
    · simp

/-- The exhaustion line is never logged by `startServer`. -/
theorem startServer_no_exhaustion (ListenAndServe : Server → ListenResult) (serv : Server)
    (startPort a b : Int) :
    Event.logNoOpenPort a b ∉ (startServer ListenAndServe serv startPort).trace := by
  unfold startServer
  apply startServerLoop_no_exhaustion
  have := wrapInt_parity (startPort + 100)
  omega

/-- When every call made fails with an error other than `ErrServerClosed`, a
loop entered `2 * k` below the bound makes `k` calls, two ports apart. -/
theorem startServerLoop_allFail (ListenAndServe : Server → ListenResult) (startPort n : Int) :
    ∀ (k fuel : Nat) (serv : Server) (port : Int),
      n = port + 2 * (k : Int) → minInt ≤ port → n ≤ maxInt → k < fuel →
      (∀ p addr, Event.ListenAndServe p addr ∈
          (startServerLoop ListenAndServe serv startPort n fuel port).trace →
        ∃ msg, ListenAndServe { serv with Addr := addr } = ListenResult.otherError msg) →
      startServerLoop ListenAndServe serv startPort n fuel port =
        ⟨(List.range k).map (fun i : Nat =>
            Event.ListenAndServe (port + 2 * (i : Int)) (":" ++ strconv_Itoa (port + 2 * (i : Int)))),
          Status.returned⟩ := by
  intro k
  induction k with
  | zero =>
    intro fuel serv port hn _ _ hfuel _
    obtain ⟨f, rfl⟩ : ∃ f, fuel = f + 1 := ⟨fuel - 1, by omega⟩
    have : ¬ port < n := by omega
    simp [startServerLoop, this]
  | succ k ih =>
    intro fuel serv port hn hlo hhi hfuel hfail
    obtain ⟨f, rfl⟩ : ∃ f, fuel = f + 1 := ⟨fuel - 1, by omega⟩
    have hlt : port < n := by omega
    have hw1 : wrapInt (port + 1) = port + 1 :=
      wrapInt_of_inRange _ (by omega) (by omega)
    have hw2 : wrapInt (port + 1 + 1) = port + 2 := by
      rw [wrapInt_of_inRange _ (by omega) (by omega)]; omega
    have hne : port + 1 ≠ n := by omega
    simp only [startServerLoop, hlt, if_true] at hfail ⊢
    cases hres : ListenAndServe { serv with Addr := ":" ++ strconv_Itoa port } with
    | ErrServerClosed =>
      simp only [hres] at hfail
      obtain ⟨msg, hmsg⟩ := hfail port (":" ++ strconv_Itoa port) (by simp)
      rw [hres] at hmsg
      cases hmsg
    | serving =>
      simp only [hres] at hfail
      obtain ⟨msg, hmsg⟩ := hfail port (":" ++ strconv_Itoa port) (by simp)
      rw [hres] at hmsg
      cases hmsg
    | otherError msg =>
      simp only [hres, hw1, hw2, hne, if_false, List.nil_append] at hfail ⊢
      have hrec := ih f { serv with Addr := ":" ++ strconv_Itoa port } (port + 2)
        (by push_cast at hn; omega) (by omega) hhi (by omega)
        (fun p addr hp => hfail p addr (List.mem_cons_of_mem _ hp))
      rw [hrec, List.range_succ_eq_map, List.map_cons, List.map_map]
      simp only [Run.mk.injEq, and_true, List.cons.injEq]
      refine ⟨by simp, ?_⟩
      apply List.map_congr_left
      intro i _
      simp only [Function.comp, Nat.succ_eq_add_one]
      have : port + 2 + 2 * (i : Int) = port + 2 * ((i + 1 : Nat) : Int) := by push_cast; ring
      rw [this]

/-- A loop entered `2 * k` below the bound ends within `k + 1` evaluations of
its condition. -/
theorem startServerLoop_fuel (ListenAndServe : Server → ListenResult) (startPort n : Int) :
    ∀ (k fuel : Nat) (serv : Server) (port : Int),
      n = port + 2 * (k : Int) → minInt ≤ port → n ≤ maxInt → k < fuel →
      (startServerLoop ListenAndServe serv startPort n fuel port).status ≠ Status.outOfFuel := by
  intro k
  induction k with
  | zero =>
    intro fuel serv port hn _ _ hfuel
    obtain ⟨f, rfl⟩ : ∃ f, fuel = f + 1 := ⟨fuel - 1, by omega⟩
    have : ¬ port < n := by omega
    simp [startServerLoop, this]
  | succ k ih =>
    intro fuel serv port hn hlo hhi hfuel
    obtain ⟨f, rfl⟩ : ∃ f, fuel = f + 1 := ⟨fuel - 1, by omega⟩
    have hlt : port < n := by omega
    have hw1 : wrapInt (port + 1) = port + 1 :=
      wrapInt_of_inRange _ (by omega) (by omega)
    have hw2 : wrapInt (port + 1 + 1) = port + 2 := by
      rw [wrapInt_of_inRange _ (by omega) (by omega)]; omega
    simp only [startServerLoop, hlt, if_true]
    split
    · simp
    · simp
    · simp only [hw1, hw2]
      exact ih f _ (port + 2) (by push_cast at hn; omega) (by omega) hhi (by omega)

/-- The fuel given by `startServer` is enough: for every start port that is a
Go `int`, the run ends by a return or inside a call that keeps serving. -/
theorem startServer_fuel_suffices (ListenAndServe : Server → ListenResult) (serv : Server)
    (startPort : Int) (hlo : minInt ≤ startPort) (hhi : startPort ≤ maxInt) :
    (startServer ListenAndServe serv startPort).status ≠ Status.outOfFuel := by
  unfold startServer
  by_cases hw : startPort + 100 ≤ maxInt
  · have hn : wrapInt (startPort + 100) = startPort + 100 :=
      wrapInt_of_inRange _ (by omega) hw
    exact startServerLoop_fuel ListenAndServe startPort _ 50 101 serv startPort
      (by rw [hn]; norm_num) hlo (by rw [hn]; exact hw) (by norm_num)
  · have hn : ¬ startPort < wrapInt (startPort + 100) := by
      simp only [wrapInt, minInt, maxInt] at *
      omega
    simp [startServerLoop, hn]

/-- A call that returns `ErrServerClosed` is followed by the log line
`HTTP(S) server was closed` and nothing else, and the loop returns. -/
theorem startServerLoop_closed_last (ListenAndServe : Server → ListenResult) (startPort n : Int) :
    ∀ (fuel : Nat) (serv : Server) (port : Int) (pre post : List Event) (p : Int) (addr : String),
      (startServerLoop ListenAndServe serv startPort n fuel port).trace
        = pre ++ Event.ListenAndServe p addr :: post →
      ListenAndServe { serv with Addr := addr } = ListenResult.ErrServerClosed →
      post = [Event.logServerClosed] ∧
        (startServerLoop ListenAndServe serv startPort n fuel port).status = Status.returned := by
  intro fuel
  induction fuel with
  | zero =>
    intro serv port pre post p addr htr _
    simp [startServerLoop] at htr
  | succ fuel ih =>
    intro serv port pre post p addr htr hcl
    simp only [startServerLoop] at htr ⊢
    split at htr
    · rename_i hlt
      simp only [hlt, if_true]
      cases hres : ListenAndServe { serv with Addr := ":" ++ strconv_Itoa port } with
      | ErrServerClosed =>
        simp only [hres] at htr ⊢
        cases pre with
        | nil =>
          simp only [List.nil_append, List.cons.injEq] at htr
          exact ⟨htr.2.symm, trivial⟩
        | cons e pre =>
          simp only [List.cons_append, List.cons.injEq] at htr
          obtain ⟨_, h2⟩ := htr
          cases pre with
          | nil => simp at h2
          | cons e2 pre => simp at h2
      | serving =>
        simp only [hres] at htr
        cases pre with
        | nil =>
          simp only [List.nil_append, List.cons.injEq, Event.ListenAndServe.injEq] at htr
          obtain ⟨⟨_, ha⟩, _⟩ := htr
          rw [← ha, hres] at hcl
          cases hcl
        | cons e pre => simp at htr
      | otherError msg =>
        simp only [hres] at htr ⊢
        cases pre with
        | nil =>
          simp only [List.nil_append, List.cons.injEq, Event.ListenAndServe.injEq] at htr
          obtain ⟨⟨_, ha⟩, _⟩ := htr
          rw [← ha, hres] at hcl
          cases hcl
        | cons e pre =>
          simp only [List.cons_append, List.cons.injEq] at htr
          obtain ⟨_, h2⟩ := htr
          split at h2
          · cases pre with
            | nil => simp at h2
            | cons e2 pre =>
              simp only [List.cons_append, List.singleton_append, List.cons.injEq] at h2
              exact ih _ _ pre post p addr h2.2 hcl
          · simp only [List.nil_append] at h2
            exact ih _ _ pre post p addr h2 hcl
    · simp at htr

/-- C1, evaluated where the code departs from it: start port 8000, port 8001
the only free port of the window 8000..8099 (every other port fails to bind).
The scan calls `ListenAndServe` on the 50 even ports 8000, 8002, ..., 8098 and
returns; the address `:8001` is never set and never served. -/
theorem startServer_skips_free_port_8001 :
    onlyFree ":8001" { makeHTTPServer with Addr := ":" ++ strconv_Itoa (8000 + 1) }
        = ListenResult.serving ∧
      (∀ k : Nat, k < 100 → k ≠ 1 →
        onlyFree ":8001" { makeHTTPServer with Addr := ":" ++ strconv_Itoa (8000 + (k : Int)) }
          = bindError) ∧
      ":8001" ∉ attemptedAddrs (startServer (onlyFree ":8001") makeHTTPServer 8000).trace ∧
      (8001 : Int) ∉ attemptedPorts (startServer (onlyFree ":8001") makeHTTPServer 8000).trace ∧
      (attemptedPorts (startServer (onlyFree ":8001") makeHTTPServer 8000).trace).length = 50 ∧
      (startServer (onlyFree ":8001") makeHTTPServer 8000).status = Status.returned := by
  refine ⟨by decide, by decide, by decide, by decide, by decide, by decide⟩

/-- C3, evaluated where the code departs from it: start port 8000 and every
port in use.  `startServer` returns, and its trace holds the 50 calls of
`ListenAndServe` and no exhaustion line; indeed no start port and no outcome
of the calls makes `startServer` log the exhaustion line. -/
theorem startServer_all_busy_logs_nothing :
    (startServer allPortsBusy makeHTTPServer 8000).status = Status.returned ∧
      (startServer allPortsBusy makeHTTPServer 8000).trace =
        (List.range 50).map (fun i : Nat =>
          Event.ListenAndServe (8000 + 2 * (i : Int)) (":" ++ strconv_Itoa (8000 + 2 * (i : Int)))) ∧
      (∀ (ListenAndServe : Server → ListenResult) (serv : Server) (startPort a b : Int),
        Event.logNoOpenPort a b ∉ (startServer ListenAndServe serv startPort).trace) := by
  refine ⟨by decide, by decide, ?_⟩
  intro ListenAndServe serv startPort a b
  exact startServer_no_exhaustion ListenAndServe serv startPort a b

/-- C4: in a run of `startServer`, a call of `ListenAndServe` that returns
`http.ErrServerClosed` (so in particular the first such call) is followed by
the log line `HTTP(S) server was closed` and by nothing else: no port is
attempted after it, `startServer` returns, and the exhaustion line is not
logged. -/
theorem startServer_returns_on_ErrServerClosed (ListenAndServe : Server → ListenResult)
    (serv : Server) (startPort : Int) (pre post : List Event) (p : Int) (addr : String)
    (htrace : (startServer ListenAndServe serv startPort).trace
      = pre ++ Event.ListenAndServe p addr :: post)
    (hclosed : ListenAndServe { serv with Addr := addr } = ListenResult.ErrServerClosed) :
    post = [Event.logServerClosed] ∧
      (startServer ListenAndServe serv startPort).status = Status.returned ∧
      (∀ q a, Event.ListenAndServe q a ∉ post) ∧
      (∀ a b, Event.logNoOpenPort a b ∉ (startServer ListenAndServe serv startPort).trace) := by
  have h := startServerLoop_closed_last ListenAndServe startPort (wrapInt (startPort + 100))
    101 serv startPort pre post p addr htrace hclosed
  refine ⟨h.1, h.2, ?_, fun a b => startServer_no_exhaustion ListenAndServe serv startPort a b⟩
  intro q a
  rw [h.1]
  simp

/-- Witness of C4: start port 8000, the server closed after serving on 8004. -/
theorem startServer_returns_on_ErrServerClosed_witness :
    [Event.logServerClosed] = [Event.logServerClosed] ∧
      (startServer (closedAt ":8004") makeHTTPServer 8000).status = Status.returned ∧
      (∀ q a, Event.ListenAndServe q a ∉ [Event.logServerClosed]) ∧
      (∀ a b, Event.logNoOpenPort a b ∉
        (startServer (closedAt ":8004") makeHTTPServer 8000).trace) :=
  startServer_returns_on_ErrServerClosed (closedAt ":8004") makeHTTPServer 8000
    [Event.ListenAndServe 8000 ":8000", Event.ListenAndServe 8002 ":8002"]
    [Event.logServerClosed] 8004 ":8004" (by decide) (by decide)

/-- C10: for a start port whose window does not overflow Go's `int`, if every
call of `ListenAndServe` made by `startServer` returns an error other than
`http.ErrServerClosed`, then the run consists of exactly the 50 calls on
`start`, `start+2`, ..., `start+98`, in this order, with the address set to
`":" + port` each time, after which `startServer` returns; no port at an odd
offset from `start` is attempted. -/
theorem startServer_attempts_even_offsets (ListenAndServe : Server → ListenResult)
    (serv : Server) (startPort : Int)
    (hlo : minInt ≤ startPort) (hhi : startPort + 100 ≤ maxInt)
    (hfail : ∀ p addr, Event.ListenAndServe p addr ∈
        (startServer ListenAndServe serv startPort).trace →
      ∃ msg, ListenAndServe { serv with Addr := addr } = ListenResult.otherError msg) :
    startServer ListenAndServe serv startPort =
        ⟨(List.range 50).map (fun i : Nat =>
            Event.ListenAndServe (startPort + 2 * (i : Int))
              (":" ++ strconv_Itoa (startPort + 2 * (i : Int)))),
          Status.returned⟩ ∧
      attemptedPorts (startServer ListenAndServe serv startPort).trace =
        (List.range 50).map (fun i : Nat => startPort + 2 * (i : Int)) ∧
      (∀ (j : Nat) (addr : String), Event.ListenAndServe (startPort + (2 * (j : Int) + 1)) addr ∉
        (startServer ListenAndServe serv startPort).trace) := by
  have hn : wrapInt (startPort + 100) = startPort + 100 :=
    wrapInt_of_inRange _ (by omega) hhi
  have hrun := startServerLoop_allFail ListenAndServe startPort (wrapInt (startPort + 100))
    50 101 serv startPort (by rw [hn]; norm_num) hlo (by rw [hn]; exact hhi) (by norm_num) hfail
  have hrun2 : startServer ListenAndServe serv startPort = _ := hrun
  refine ⟨hrun2, ?_, ?_⟩
  · rw [hrun2]
    generalize List.range 50 = l
    induction l with
    | nil => rfl
    | cons i l ih => simp only [List.map_cons, attemptedPorts, ih]
  · intro j addr hmem
    rw [hrun2] at hmem
    simp only [List.mem_map, List.mem_range, Event.ListenAndServe.injEq] at hmem
    obtain ⟨i, _, hi, _⟩ := hmem
    omega

/-- Witness of C10: start port 8000 with every port in use. -/
theorem startServer_attempts_even_offsets_witness :
    startServer allPortsBusy makeHTTPServer 8000 =
        ⟨(List.range 50).map (fun i : Nat =>
            Event.ListenAndServe (8000 + 2 * (i : Int)) (":" ++ strconv_Itoa (8000 + 2 * (i : Int)))),
          Status.returned⟩ ∧
      attemptedPorts (startServer allPortsBusy makeHTTPServer 8000).trace =
        (List.range 50).map (fun i : Nat => 8000 + 2 * (i : Int)) ∧
      (∀ (j : Nat) (addr : String), Event.ListenAndServe (8000 + (2 * (j : Int) + 1)) addr ∉
        (startServer allPortsBusy makeHTTPServer 8000).trace) :=
  startServer_attempts_even_offsets allPortsBusy makeHTTPServer 8000
    (by decide) (by decide) (fun _ _ _ => ⟨_, rfl⟩)

/-! ## spawnServer -/

theorem Env.anyOf_prod_staging (e : Env) :
    e.AnyOf [Env.Production, Env.Staging] = true ↔ (e = Env.Production ∨ e = Env.Staging) := by
  cases e <;> decide

/-- In Production and Staging the HTTPS goroutine is started on
`":" + HttpsPort`, with an empty chain and key when the chain or the key is
empty and with the configured chain and key otherwise. -/
theorem spawnServerState_httpsLaunch (cfg : Config)
    (hm : cfg.Environment = Env.Production ∨ cfg.Environment = Env.Staging) :
    ∃ l, (spawnServerState cfg).httpsLaunch = some l ∧
      l.srv.Addr = ":" ++ strconv_Itoa cfg.Worker.Server.HttpsPort ∧
      l.chain = (if cfg.Worker.Server.HttpsChain = "" ∨ cfg.Worker.Server.HttpsKey = "" then ""
        else cfg.Worker.Server.HttpsChain) ∧
      l.key = (if cfg.Worker.Server.HttpsChain = "" ∨ cfg.Worker.Server.HttpsKey = "" then ""
        else cfg.Worker.Server.HttpsKey) := by
  have hmode := (Env.anyOf_prod_staging cfg.Environment).mpr hm
  by_cases hck : cfg.Worker.Server.HttpsChain = "" ∨ cfg.Worker.Server.HttpsKey = ""
  · simp [spawnServerState, spawnServerTLS, hmode, hck, addrOfPort, strconv_Itoa]
  · simp [spawnServerState, spawnServerTLS, hmode, hck, addrOfPort, strconv_Itoa]

/-- In the other modes nothing is started for HTTPS, no manager is built and
the plain server is chosen. -/
theorem spawnServerState_plain (cfg : Config)
    (hm : ¬ (cfg.Environment = Env.Production ∨ cfg.Environment = Env.Staging)) :
    (spawnServerState cfg).httpsLaunch = none ∧
      (spawnServerState cfg).certManager = none ∧
      (spawnServerState cfg).httpSrv = makeHTTPServer := by
  have hmode : ¬ cfg.Environment.AnyOf [Env.Production, Env.Staging] = true :=
    fun h => hm ((Env.anyOf_prod_staging cfg.Environment).mp h)
  simp [spawnServerState, spawnServerTLS, hmode]

/-- The goroutine calls `ListenAndServeTLS` exactly once, on the address of its
server and with the chain and key it was started with. -/
theorem httpsGoroutine_calls (ListenAndServeTLS : Server → String → String → ListenResult)
    (l : HTTPSLaunch) :
    (httpsGoroutine ListenAndServeTLS l).trace.filter Event.isListen
      = [Event.ListenAndServeTLS l.srv.Addr l.chain l.key] := by
  unfold httpsGoroutine
  split <;> simp [Event.isListen]

/-- When the call of `ListenAndServeTLS` returns an error, the goroutine logs
it and ends. -/
theorem httpsGoroutine_of_error (ListenAndServeTLS : Server → String → String → ListenResult)
    (l : HTTPSLaunch) (msg : String)
    (herr : ListenAndServeTLS l.srv l.chain l.key = ListenResult.otherError msg) :
    httpsGoroutine ListenAndServeTLS l =
      ⟨[Event.printStartingHTTPS l.srv.Addr, Event.ListenAndServeTLS l.srv.Addr l.chain l.key,
          Event.logHTTPSFailed], Status.returned⟩ := by
  unfold httpsGoroutine
  rw [herr]

/-- C2 fails as stated: in Production with a chain `chain.pem` and an empty
key, `spawnServer` builds a certificate manager although the chain is not
empty, and the goroutine is started with an empty chain and key, not with the
configured chain. -/
theorem spawnServer_manager_with_chain_only :
    ¬ ((spawnServerState prodChainOnly).certManager.isSome = true ↔
        ((prodChainOnly.Environment = Env.Production ∨ prodChainOnly.Environment = Env.Staging) ∧
          prodChainOnly.Worker.Server.HttpsChain = "" ∧
          prodChainOnly.Worker.Server.HttpsKey = "")) ∧
      prodChainOnly.Environment = Env.Production ∧
      prodChainOnly.Worker.Server.HttpsChain = "chain.pem" ∧
      (spawnServerState prodChainOnly).certManager.isSome = true ∧
      (spawnServerState prodChainOnly).httpsLaunch.map (fun l => (l.chain, l.key))
        = some ("", "") ∧
      (spawnServer allPortsBusy tlsBusy prodChainOnly 8000).https.map
          (fun g => g.trace.filter Event.isListen)
        = some [Event.ListenAndServeTLS ":443" "" ""] := by
  refine ⟨by decide, by decide, by decide, by decide, by decide, by decide⟩

/-- C2 as amended: `spawnServer` builds a certificate manager if and only if
the mode is Production or Staging and the chain or the key is empty.  In these
modes the goroutine makes one call of `ListenAndServeTLS`, which receives the
configured chain and key when both are non-empty and an empty chain and key
otherwise; in the other modes there is no goroutine and no call. -/
theorem spawnServer_manager_iff (ListenAndServe : Server → ListenResult)
    (ListenAndServeTLS : Server → String → String → ListenResult) (cfg : Config) (port : Int) :
    ((spawnServerState cfg).certManager.isSome = true ↔
        ((cfg.Environment = Env.Production ∨ cfg.Environment = Env.Staging) ∧
          (cfg.Worker.Server.HttpsChain = "" ∨ cfg.Worker.Server.HttpsKey = ""))) ∧
      (spawnServer ListenAndServe ListenAndServeTLS cfg port).https.map
          (fun g => g.trace.filter Event.isListen) =
        (if cfg.Environment = Env.Production ∨ cfg.Environment = Env.Staging then
          (if cfg.Worker.Server.HttpsChain = "" ∨ cfg.Worker.Server.HttpsKey = "" then
            some [Event.ListenAndServeTLS (":" ++ strconv_Itoa cfg.Worker.Server.HttpsPort) "" ""]
          else
            some [Event.ListenAndServeTLS (":" ++ strconv_Itoa cfg.Worker.Server.HttpsPort)
              cfg.Worker.Server.HttpsChain cfg.Worker.Server.HttpsKey])
        else none) := by
  refine ⟨?_, ?_⟩
  · by_cases hmode : cfg.Environment.AnyOf [Env.Production, Env.Staging] = true
    · have hm := (Env.anyOf_prod_staging cfg.Environment).mp hmode
      by_cases hck : cfg.Worker.Server.HttpsChain = "" ∨ cfg.Worker.Server.HttpsKey = ""
      · simp [spawnServerState, spawnServerTLS, hmode, hm, hck]
      · simp [spawnServerState, spawnServerTLS, hmode, hm, hck]
    · have hm : ¬ (cfg.Environment = Env.Production ∨ cfg.Environment = Env.Staging) :=
        fun h => hmode ((Env.anyOf_prod_staging cfg.Environment).mpr h)
      simp [spawnServerState, spawnServerTLS, hmode, hm]
  · by_cases hm : cfg.Environment = Env.Production ∨ cfg.Environment = Env.Staging
    · obtain ⟨l, hl, haddr, hchain, hkey⟩ := spawnServerState_httpsLaunch cfg hm
      have hcall := httpsGoroutine_calls ListenAndServeTLS l
      rw [haddr, hchain, hkey] at hcall
      simp only [spawnServer, hl, Option.map_some', hcall, hm, if_true]
      by_cases hck : cfg.Worker.Server.HttpsChain = "" ∨ cfg.Worker.Server.HttpsKey = ""
      · simp [hck]
      · simp [hck]
    · simp [spawnServer, (spawnServerState_plain cfg hm).1, hm]

/-- C5 fails as stated: Production with a static chain and key and Production
with a chain only have the same mode, yet `startServer` is given different
servers: the server of `makeHTTPToHTTPSRedirectServer` in the first case, and
in the second one a server whose handler is the manager's HTTP handler put in
front of the redirect mux. -/
theorem spawnServer_server_not_by_mode_alone :
    ¬ (∀ cfg1 cfg2 : Config, cfg1.Environment = cfg2.Environment →
        (spawnServerState cfg1).httpSrv = (spawnServerState cfg2).httpSrv) ∧
      prodStatic.Environment = prodChainOnly.Environment ∧
      (spawnServerState prodStatic).httpSrv = makeHTTPToHTTPSRedirectServer ∧
      (spawnServerState prodChainOnly).httpSrv ≠ makeHTTPToHTTPSRedirectServer ∧
      (spawnServerState prodChainOnly).httpSrv.Handler =
        Handler.acmeHTTPHandler
          ⟨autocert_AcceptTOS, "assets/cache", acme_LetsEncryptURL⟩
          makeHTTPToHTTPSRedirectServer.Handler ∧
      (spawnServer allPortsBusy tlsBusy prodChainOnly 8000).post =
        startServer allPortsBusy (spawnServerState prodChainOnly).httpSrv 8000 := by
  refine ⟨?_, by decide, by decide, by decide, by decide, rfl⟩
  intro h
  exact absurd (h prodStatic prodChainOnly (by decide)) (by decide)

/-- C5 as amended: the mode alone decides whether `spawnServer` starts an HTTPS
listener and which constructor builds the server given to `startServer`.  In
Production and Staging the goroutine is started and makes one call of
`ListenAndServeTLS` on `":" + HttpsPort`, and `startServer` is given the server
of `makeHTTPToHTTPSRedirectServer`, whose handler is wrapped by the manager's
HTTP handler exactly when a manager was built.  In every other mode no
goroutine is started and no call of `ListenAndServeTLS` is made, no manager is
built, and `startServer` is given the server of `makeHTTPServer`, whatever the
chain, key and port fields are. -/
theorem spawnServer_policy_by_mode (ListenAndServe : Server → ListenResult)
    (ListenAndServeTLS : Server → String → String → ListenResult) (cfg : Config) (port : Int) :
    ((cfg.Environment = Env.Production ∨ cfg.Environment = Env.Staging) →
        (∃ chain key,
          (spawnServer ListenAndServe ListenAndServeTLS cfg port).pre =
            [Event.spawnServer port,
              Event.goHTTPS (":" ++ strconv_Itoa cfg.Worker.Server.HttpsPort) chain key] ∧
          (spawnServer ListenAndServe ListenAndServeTLS cfg port).https.map
              (fun g => g.trace.filter Event.isListen) =
            some [Event.ListenAndServeTLS (":" ++ strconv_Itoa cfg.Worker.Server.HttpsPort)
              chain key]) ∧
        (spawnServer ListenAndServe ListenAndServeTLS cfg port).post =
          startServer ListenAndServe
            (match (spawnServerState cfg).certManager with
             | none => makeHTTPToHTTPSRedirectServer
             | some m =>
               { makeHTTPToHTTPSRedirectServer with
                 Handler := Handler.acmeHTTPHandler m makeHTTPToHTTPSRedirectServer.Handler })
            port) ∧
      (¬ (cfg.Environment = Env.Production ∨ cfg.Environment = Env.Staging) →
        (spawnServer ListenAndServe ListenAndServeTLS cfg port).pre = [Event.spawnServer port] ∧
        (spawnServer ListenAndServe ListenAndServeTLS cfg port).https = none ∧
        (spawnServerState cfg).certManager = none ∧
        (spawnServer ListenAndServe ListenAndServeTLS cfg port).post =
          startServer ListenAndServe makeHTTPServer port) := by
  refine ⟨?_, ?_⟩
  · intro hm
    obtain ⟨l, hl, haddr, _, _⟩ := spawnServerState_httpsLaunch cfg hm
    have hcall := httpsGoroutine_calls ListenAndServeTLS l
    rw [haddr] at hcall
    refine ⟨⟨l.chain, l.key, ?_, ?_⟩, ?_⟩
    · simp [spawnServer, hl, haddr]
    · simp [spawnServer, hl, hcall]
    · have hmode := (Env.anyOf_prod_staging cfg.Environment).mpr hm
      have hsrv : (spawnServerState cfg).httpSrv =
          (match (spawnServerState cfg).certManager with
           | none => makeHTTPToHTTPSRedirectServer
           | some m =>
             { makeHTTPToHTTPSRedirectServer with
               Handler := Handler.acmeHTTPHandler m makeHTTPToHTTPSRedirectServer.Handler }) := by
        by_cases hck : cfg.Worker.Server.HttpsChain = "" ∨ cfg.Worker.Server.HttpsKey = ""
        · simp [spawnServerState, spawnServerTLS, hmode, hck]
        · simp [spawnServerState, spawnServerTLS, hmode, hck]
      show startServer ListenAndServe (spawnServerState cfg).httpSrv port = _
      rw [← hsrv]
  · intro hm
    obtain ⟨h1, h2, h3⟩ := spawnServerState_plain cfg hm
    refine ⟨?_, ?_, h2, ?_⟩
    · simp [spawnServer, h1]
    · simp [spawnServer, h1]
    · show startServer ListenAndServe (spawnServerState cfg).httpSrv port = _
      rw [h3]

/-- C6: a certificate manager built by `spawnServer` has the staging
directory URL when the mode is Staging and `acme.LetsEncryptURL` otherwise; its
prompt is `autocert.AcceptTOS` and its cache is the directory `assets/cache`. -/
theorem spawnServer_manager_fields (cfg : Config) (m : Manager)
    (hm : (spawnServerState cfg).certManager = some m) :
    m.DirectoryURL =
        (if cfg.Environment = Env.Staging then
          "https://acme-staging-v02.api.letsencrypt.org/directory"
        else acme_LetsEncryptURL) ∧
      m.Prompt = autocert_AcceptTOS ∧
      m.Cache = autocert_DirCache "assets/cache" := by
  by_cases hmode : cfg.Environment.AnyOf [Env.Production, Env.Staging] = true
  · by_cases hck : cfg.Worker.Server.HttpsChain = "" ∨ cfg.Worker.Server.HttpsKey = ""
    · simp only [spawnServerState, spawnServerTLS, hmode, hck, if_true, Option.some.injEq] at hm
      subst hm
      by_cases hs : cfg.Environment = Env.Staging <;> simp [hs, stagingLEURL]
    · simp [spawnServerState, spawnServerTLS, hmode, hck] at hm
  · simp [spawnServerState, spawnServerTLS, hmode] at hm

/-- Witness of C6: Staging with no static certificate. -/
theorem spawnServer_manager_fields_witness :
    (spawnServerState stagingAuto).certManager
        = some ⟨autocert_AcceptTOS, "assets/cache",
            "https://acme-staging-v02.api.letsencrypt.org/directory"⟩ ∧
      (("https://acme-staging-v02.api.letsencrypt.org/directory" : String) =
        (if stagingAuto.Environment = Env.Staging then
          "https://acme-staging-v02.api.letsencrypt.org/directory"
        else acme_LetsEncryptURL) ∧
      autocert_AcceptTOS = autocert_AcceptTOS ∧
      ("assets/cache" : String) = autocert_DirCache "assets/cache") :=
  ⟨by decide, spawnServer_manager_fields stagingAuto
    ⟨autocert_AcceptTOS, "assets/cache",
      "https://acme-staging-v02.api.letsencrypt.org/directory"⟩ (by decide)⟩

/-- C9 fails as stated: in Production with the HTTPS port 443 in use, the
goroutine calls `ListenAndServeTLS` once, on `:443`, logs the failure and
ends; no other port is tried for the HTTPS listener, while the HTTP listener
is tried on 50 ports. -/
theorem spawnServer_https_not_retried :
    tlsBusy { makeHTTPServer with Addr := ":443" } "chain.pem" "key.pem" = bindError ∧
      (spawnServer allPortsBusy tlsBusy prodStatic 8000).https =
        some ⟨[Event.printStartingHTTPS ":443",
               Event.ListenAndServeTLS ":443" "chain.pem" "key.pem",
               Event.logHTTPSFailed], Status.returned⟩ ∧
      ((spawnServer allPortsBusy tlsBusy prodStatic 8000).https.map
          (fun g => (g.trace.filter Event.isListen).length)) = some 1 ∧
      (attemptedAddrs (spawnServer allPortsBusy tlsBusy prodStatic 8000).post.trace).length
        = 50 := by
  refine ⟨by decide, by decide, by decide, by decide⟩

/-- C9 as amended: in Production and Staging only the HTTP listener has a
port scan.  The HTTPS goroutine makes exactly one call of `ListenAndServeTLS`,
on `":" + HttpsPort`, whatever the call does; if the bind fails because the
port is in use, the error is logged and the goroutine ends, no other port
having been tried.  The HTTP listener runs the scan of `startServer`, whatever
the outcome of the HTTPS call. -/
theorem spawnServer_https_single_attempt (ListenAndServe : Server → ListenResult)
    (ListenAndServeTLS : Server → String → String → ListenResult) (cfg : Config) (port : Int)
    (hmode : cfg.Environment = Env.Production ∨ cfg.Environment = Env.Staging) :
    ∃ chain key,
      (spawnServer ListenAndServe ListenAndServeTLS cfg port).https.map
          (fun g => g.trace.filter Event.isListen) =
        some [Event.ListenAndServeTLS (":" ++ strconv_Itoa cfg.Worker.Server.HttpsPort)
          chain key] ∧
      ((∀ (s : Server) (c k : String),
          s.Addr = ":" ++ strconv_Itoa cfg.Worker.Server.HttpsPort →
          ∃ msg, ListenAndServeTLS s c k = ListenResult.otherError msg) →
        (spawnServer ListenAndServe ListenAndServeTLS cfg port).https =
          some ⟨[Event.printStartingHTTPS (":" ++ strconv_Itoa cfg.Worker.Server.HttpsPort),
                 Event.ListenAndServeTLS (":" ++ strconv_Itoa cfg.Worker.Server.HttpsPort)
                   chain key,
                 Event.logHTTPSFailed], Status.returned⟩) ∧
      (spawnServer ListenAndServe ListenAndServeTLS cfg port).post
        = startServer ListenAndServe (spawnServerState cfg).httpSrv port ∧
      (∀ other : Server → String → String → ListenResult,
        (spawnServer ListenAndServe other cfg port).post
          = (spawnServer ListenAndServe ListenAndServeTLS cfg port).post) := by
  obtain ⟨l, hl, haddr, _, _⟩ := spawnServerState_httpsLaunch cfg hmode
  refine ⟨l.chain, l.key, ?_, ?_, rfl, fun _ => rfl⟩
  · have hcall := httpsGoroutine_calls ListenAndServeTLS l
    rw [haddr] at hcall
    simp [spawnServer, hl, hcall]
  · intro hbusy
    obtain ⟨msg, hmsg⟩ := hbusy l.srv l.chain l.key haddr
    have hrun := httpsGoroutine_of_error ListenAndServeTLS l msg hmsg
    rw [haddr] at hrun
    simp [spawnServer, hl, hrun]

/-- Witness of C9 as amended: Production with a static certificate and the
HTTPS port in use. -/
theorem spawnServer_https_single_attempt_witness :
    (prodStatic.Environment = Env.Production ∨ prodStatic.Environment = Env.Staging) ∧
      (∀ (s : Server) (c k : String), s.Addr = ":443" →
        ∃ msg, tlsBusy s c k = ListenResult.otherError msg) ∧
      ∃ chain key,
        (spawnServer allPortsBusy tlsBusy prodStatic 8000).https.map
            (fun g => g.trace.filter Event.isListen) =
          some [Event.ListenAndServeTLS ":443" chain key] ∧
        (spawnServer allPortsBusy tlsBusy prodStatic 8000).https =
          some ⟨[Event.printStartingHTTPS ":443",
                 Event.ListenAndServeTLS ":443" chain key,
                 Event.logHTTPSFailed], Status.returned⟩ := by
  refine ⟨Or.inl rfl, fun _ _ _ _ => ⟨_, rfl⟩, ?_⟩
  obtain ⟨chain, key, h1, h2, _, _⟩ :=
    spawnServer_https_single_attempt allPortsBusy tlsBusy prodStatic 8000 (Or.inl rfl)
  exact ⟨chain, key, h1, h2 (fun _ _ _ _ => ⟨_, rfl⟩)⟩

/-! ## initializeWorker -/

theorem mem_interleave (e : Event) :
    ∀ (sched : List Bool) (xs ys : List Event), e ∈ interleave sched xs ys → e ∈ xs ∨ e ∈ ys := by
  intro sched
  induction sched with
  | nil =>
    intro xs ys h
    cases xs with
    | nil => simp only [interleave] at h; exact Or.inr h
    | cons x xs =>
      cases ys with
      | nil => simp only [interleave] at h; exact Or.inl h
      | cons y ys =>
        simp only [interleave] at h
        rcases List.mem_cons.mp h with h | h
        · exact Or.inl (h ▸ List.mem_cons_self _ _)
        · rcases List.mem_append.mp h with h | h
          · exact Or.inl (List.mem_cons_of_mem _ h)
          · exact Or.inr h
  | cons b sched ih =>
    intro xs
    induction xs with
    | nil => intro ys h; simp only [interleave] at h; exact Or.inr h
    | cons x xs ihx =>
      intro ys
      induction ys with
      | nil => intro h; simp only [interleave] at h; exact Or.inl h
      | cons y ys _ =>
        intro h
        cases b with
        | true =>
          simp only [interleave] at h
          rcases List.mem_cons.mp h with h | h
          · exact Or.inl (h ▸ List.mem_cons_self _ _)
          · rcases ih xs (y :: ys) h with h | h
            · exact Or.inl (List.mem_cons_of_mem _ h)
            · exact Or.inr h
        | false =>
          simp only [interleave] at h
          rcases List.mem_cons.mp h with h | h
          · exact Or.inr (h ▸ List.mem_cons_self _ _)
          · rcases ih (x :: xs) ys h with h | h
            · exact Or.inl h
            · exact Or.inr (List.mem_cons_of_mem _ h)

/-- The loop of `startServer` does not call `spawnServer`. -/
theorem startServerLoop_no_spawn (ListenAndServe : Server → ListenResult) (startPort n : Int) :
    ∀ (fuel : Nat) (serv : Server) (port q : Int),
      Event.spawnServer q ∉ (startServerLoop ListenAndServe serv startPort n fuel port).trace := by
  intro fuel
  induction fuel with
  | zero => intro serv port q; simp [startServerLoop]
  | succ fuel ih =>
    intro serv port q
    simp only [startServerLoop]
    split
    · split
      · simp
      · simp
      · simp only [List.mem_cons, List.mem_append, not_or]
        refine ⟨by simp, ?_, ih _ _ q⟩
        split <;> simp
    · simp

/-- C8: in every run of `initializeWorker`, under every schedule of the HTTPS
goroutine, each call of `ListenAndServe` or `ListenAndServeTLS` comes strictly
after the return of `wrk.Prepare()`; `spawnServer` is called with the
configured port `cfg.Worker.Server.Port` and with no other, right after
`Prepare` has returned. -/
theorem initializeWorker_listens_after_prepare (prepareReturns : Bool)
    (ListenAndServe : Server → ListenResult)
    (ListenAndServeTLS : Server → String → String → ListenResult)
    (cfg : Config) (sched : List Bool) :
    (∀ (i : Nat) (e : Event),
        ((initializeWorker prepareReturns ListenAndServe ListenAndServeTLS cfg).observed sched)[i]?
          = some e →
        e.isListen = true →
        ∃ j, j < i ∧
          ((initializeWorker prepareReturns ListenAndServe ListenAndServeTLS cfg).observed sched)[j]?
            = some Event.PrepareReturned) ∧
      (∀ p : Int,
        Event.spawnServer p ∈
          (initializeWorker prepareReturns ListenAndServe ListenAndServeTLS cfg).observed sched →
        p = cfg.Worker.Server.Port) ∧
      (prepareReturns = true →
        ((initializeWorker prepareReturns ListenAndServe ListenAndServeTLS cfg).observed sched)[4]?
          = some (Event.spawnServer cfg.Worker.Server.Port)) := by
  cases prepareReturns with
  | false =>
    have htr : (initializeWorker false ListenAndServe ListenAndServeTLS cfg).observed sched
        = [Event.NewHandler, Event.goHandlerRun, Event.PrepareCalled] := by
      simp [initializeWorker, Spawned.observed, interleave]
    rw [htr]
    refine ⟨?_, ?_, ?_⟩
    · intro i e hi he
      rcases i with _ | _ | _ | i
      · simp at hi; subst hi; simp [Event.isListen] at he
      · simp at hi; subst hi; simp [Event.isListen] at he
      · simp at hi; subst hi; simp [Event.isListen] at he
      · simp at hi
    · intro p hp
      simp at hp
    · intro h
      cases h
  | true =>
    refine ⟨?_, ?_, ?_⟩
    · intro i e hi he
      rcases i with _ | _ | _ | _ | i
      · simp [initializeWorker, Spawned.observed] at hi; subst hi; simp [Event.isListen] at he
      · simp [initializeWorker, Spawned.observed] at hi; subst hi; simp [Event.isListen] at he
      · simp [initializeWorker, Spawned.observed] at hi; subst hi; simp [Event.isListen] at he
      · simp [initializeWorker, Spawned.observed] at hi; subst hi; simp [Event.isListen] at he
      · exact ⟨3, by omega, by simp [initializeWorker, Spawned.observed]⟩
    · intro p hp
      simp only [initializeWorker, Spawned.observed, if_true, List.mem_append] at hp
      rcases hp with (hp | hp) | hp
      · simp at hp
      · simp only [spawnServer, List.mem_cons] at hp
        rcases hp with hp | hp
        · cases hp; rfl
        · split at hp <;> simp at hp
      · rcases mem_interleave _ _ _ _ hp with hp | hp
        · exfalso
          have hno := startServerLoop_no_spawn ListenAndServe cfg.Worker.Server.Port
            (wrapInt (cfg.Worker.Server.Port + 100)) 101 (spawnServerState cfg).httpSrv
            cfg.Worker.Server.Port p
          simp only [spawnServer, startServer] at hp
          split at hp
          · simp only [List.mem_append, List.mem_singleton] at hp
            rcases hp with hp | hp
            · exact hno hp
            · cases hp
          · exact hno hp
        · exfalso
          simp only [spawnServer] at hp
          cases hl : (spawnServerState cfg).httpsLaunch with
          | none => simp [hl] at hp
          | some l =>
            simp only [hl, Option.map_some'] at hp
            unfold httpsGoroutine at hp
            split at hp <;> simp at hp
    · intro _
      simp [initializeWorker, Spawned.observed, spawnServer]

/-! ## The redirect server -/

/-- A string of bytes below `0x80` is left as it is by `hexEscapeNonASCII`. -/
theorem hexEscapeChars_ascii (l : List Char) (h : ∀ c ∈ l, c.toNat < 0x80) :
    hexEscapeChars l = l := by
  induction l with
  | nil => rfl
  | cons c cs ih =>
    have hc : c.toNat < 0x80 := h c (List.mem_cons_self _ _)
    have hcs := ih (fun d hd => h d (List.mem_cons_of_mem _ hd))
    simp [hexEscapeChars, hc, hcs]

/-- The result of `cleanPath` is rooted. -/
theorem cleanPath_rooted (p : String) : (cleanPath p).data.head? = some '/' := by
  unfold cleanPath
  split
  · rfl
  · simp only []
    split <;> split <;> simp [path_Clean]

/-- A path in canonical form is rooted. -/
theorem rooted_of_cleanPath_eq (p : String) (h : cleanPath p = p) :
    p.data.head? = some '/' := by
  have := cleanPath_rooted p
  rw [h] at this
  exact this

/-- C7 fails as stated.  A request for `/p?q=é` on `host` is answered with the
target `https://host/p?q=%c3%a9`: `http.Redirect` writes the bytes of `é` as
`%c3%a9`, so the query is not kept verbatim.  A request for `//p` is not
passed to `handleRedirect` at all: the mux answers it with status 301 and the
cleaned path `/p`. -/
theorem redirectServer_not_verbatim :
    makeHTTPToHTTPSRedirectServer.Handler.ServeHTTP ⟨"host", ⟨"/p", "/p", "q=é", false⟩⟩
        = some (Served.byHandler HandlerFunc.handleRedirect
            ⟨302, "https://host/p?q=%c3%a9"⟩) ∧
      ("https://host/p?q=%c3%a9" : String)
        ≠ "https://" ++ "host" ++ (URL.String ⟨"/p", "/p", "q=é", false⟩) ∧
      makeHTTPToHTTPSRedirectServer.Handler.ServeHTTP ⟨"host", ⟨"//p", "//p", "", false⟩⟩
        = some (Served.movedPermanently "/p" "") ∧
      (makeHTTPToHTTPSRedirectServer.Handler.ServeHTTP ⟨"host", ⟨"//p", "//p", "", false⟩⟩).map
          Served.StatusCode = some 301 := by
  refine ⟨by decide, by decide, by decide, by decide⟩

/-- C7 as amended: for every request with host `h` whose path is in canonical
form (`cleanPath` leaves it unchanged), the server built by
`makeHTTPToHTTPSRedirectServer` passes the request to `handleRedirect`, and the
response has status 302 and the target `"https://" ++ h ++ u` with every
non-ASCII byte percent-encoded, where `u` is the path followed by the query,
if any; when `h` and `u` are ASCII the target is exactly `"https://" ++ h ++ u`. -/
theorem redirectServer_found_https (r : Request)
    (hclean : cleanPath r.URL.Path = r.URL.Path) :
    makeHTTPToHTTPSRedirectServer.Handler.ServeHTTP r
        = some (Served.byHandler HandlerFunc.handleRedirect
            ⟨302, hexEscapeNonASCII ("https://" ++ r.Host ++ r.URL.String)⟩) ∧
      (makeHTTPToHTTPSRedirectServer.Handler.ServeHTTP r).map Served.StatusCode = some 302 ∧
      ((∀ c ∈ ("https://" ++ r.Host ++ r.URL.String).data, c.toNat < 0x80) →
        makeHTTPToHTTPSRedirectServer.Handler.ServeHTTP r
          = some (Served.byHandler HandlerFunc.handleRedirect
              ⟨302, "https://" ++ r.Host ++ r.URL.String⟩)) := by
  have hroot := rooted_of_cleanPath_eq _ hclean
  have hstar : r.URL.Path ≠ "*" := by
    intro h
    rw [h] at hroot
    exact absurd hroot (by decide)
  have hpre : ("/" : String).data.isPrefixOf r.URL.Path.data = true := by
    cases hd : r.URL.Path.data with
    | nil => rw [hd] at hroot; simp at hroot
    | cons c cs =>
      rw [hd] at hroot
      simp only [List.head?_cons, Option.some.injEq] at hroot
      subst hroot
      simp [List.isPrefixOf]
  have hserve : makeHTTPToHTTPSRedirectServer.Handler.ServeHTTP r
      = some (Served.byHandler HandlerFunc.handleRedirect
          ⟨302, hexEscapeNonASCII ("https://" ++ r.Host ++ r.URL.String)⟩) := by
    simp [makeHTTPToHTTPSRedirectServer, makeServerFromMux, Handler.ServeHTTP, hstar, hclean,
      hpre, HandlerFunc.ServeHTTP, handleRedirect, http_Redirect, http_StatusFound]
  refine ⟨hserve, ?_, ?_⟩
  · rw [hserve]; rfl
  · intro hascii
    rw [hserve]
    have : hexEscapeNonASCII ("https://" ++ r.Host ++ r.URL.String)
        = "https://" ++ r.Host ++ r.URL.String := by
      unfold hexEscapeNonASCII
      rw [hexEscapeChars_ascii _ hascii]
    rw [this]

/-- Witness of C7 as amended: a request for `/p?q=1` on `host` is sent to
`https://host/p?q=1` with status 302. -/
theorem redirectServer_found_https_witness :
    cleanPath "/p" = "/p" ∧
      makeHTTPToHTTPSRedirectServer.Handler.ServeHTTP ⟨"host", ⟨"/p", "/p", "q=1", false⟩⟩
        = some (Served.byHandler HandlerFunc.handleRedirect ⟨302, "https://host/p?q=1"⟩) :=
  ⟨by decide,
    ((redirectServer_found_https ⟨"host", ⟨"/p", "/p", "q=1", false⟩⟩ (by decide)).2.2
      (by decide))⟩

end Worker
